import Mathlib

/-!
Shallow embedding of `helper.py` from the altscore_challenge repository.

The repository has two independent pieces of logic:

* a neighbour aggregator over an H3 hexagonal grid
  (`compute_neighbours_col`, `compute_neighbours_costs_for_row`), and
* a chunked parquet indexer (`compute_h3_index`, `process_file_with_h3`).

External library primitives (`h3.h3_distance`, `h3.geo_to_h3`) are taken as
parameters; a call that may raise a Python exception is modelled as a
function into `Except String`.  Pandas `NaN` results are modelled as
`Option ℚ` with `none` for NaN, and numeric column values as rationals.
-/

/-- A row of the aggregation dataframe: an `hex_id` cell identifier plus the
numeric columns, accessed by column name (`comp_to[col]` in the source). -/
structure HexRow where
  hex_id : String
  cols : String → ℚ

/-- The loop body of `compute_neighbours_col` (helper.py lines 53-61): walk
the dataframe in row order, compute `h3.h3_distance(center, candid)` for each
row — any exception raised by the distance primitive aborts the walk — and
collect the values of column `col` of the rows at grid distance `> 0` and
`<= max_distance` from the center. -/
def collectCosts (h3_distance : String → String → Except String ℕ)
    (center : String) (max_distance : ℕ) (col : String) :
    List HexRow → Except String (List ℚ)
  | [] => .ok []
  | r :: rest =>
    match h3_distance center r.hex_id with
    | .error e => .error e
    | .ok d =>
      match collectCosts h3_distance center max_distance col rest with
      | .error e => .error e
      | .ok tail => .ok (if 0 < d ∧ d ≤ max_distance then r.cols col :: tail else tail)

/-- Embedding of `compute_neighbours_col` (helper.py lines 9-65): mean of the
collected neighbour values, `np.nan` (here `none`) when no neighbour is in
range.  The distance primitive is a parameter; an exception it raises
propagates (the source has no try/except around the loop). -/
def compute_neighbours_col (h3_distance : String → String → Except String ℕ)
    (row : HexRow) (df : List HexRow) (max_distance : ℕ)
    (col : String := "cost_of_living") : Except String (Option ℚ) :=
  match collectCosts h3_distance row.hex_id max_distance col df with
  | .error e => .error e
  | .ok costs =>
    .ok (if costs.length = 0 then none else some (costs.sum / (costs.length : ℚ)))

/-- Embedding of `compute_neighbours_costs_for_row` (helper.py lines 67-99):
the four per-distance means at distances 1, 2, 3, 4 with the default column,
evaluated left to right; the first exception aborts the list. -/
def compute_neighbours_costs_for_row (h3_distance : String → String → Except String ℕ)
    (row : HexRow) (df : List HexRow) : Except String (List (Option ℚ)) := do
  let a ← compute_neighbours_col h3_distance row df 1
  let b ← compute_neighbours_col h3_distance row df 2
  let c ← compute_neighbours_col h3_distance row df 3
  let d ← compute_neighbours_col h3_distance row df 4
  return [a, b, c, d]

/-- Modelled from the spec: the global driver `neighbor_means` that applies
`compute_neighbours_costs_for_row` to every row of the table (per the spec, the
`pandas.DataFrame.apply` usage) is not among the source files; it is modelled
as a row-order-preserving map over the rows. -/
def neighbor_means (h3_distance : String → String → Except String ℕ)
    (rows : List HexRow) : Except String (List (List (Option ℚ))) :=
  rows.mapM (fun r => compute_neighbours_costs_for_row h3_distance r rows)

/-- A total (never-raising) grid-distance primitive, as `Except`. -/
def liftDist (gd : String → String → ℕ) : String → String → Except String ℕ :=
  fun a b => .ok (gd a b)

/-- The rows of `df` the aggregator counts as neighbours of `center` at
distance bound `d`: grid distance strictly positive and at most `d`. -/
def neighboursAt (gd : String → String → ℕ) (center : String) (d : ℕ)
    (df : List HexRow) : List HexRow :=
  df.filter (fun r2 => 0 < gd center r2.hex_id ∧ gd center r2.hex_id ≤ d)

/-- The arithmetic mean of a list of values, or the "no data" sentinel
(`np.nan`, modelled as `none`) when the list is empty. -/
def meanOpt (vals : List ℚ) : Option ℚ :=
  if vals = [] then none else some (vals.sum / (vals.length : ℚ))

theorem collectCosts_liftDist (gd : String → String → ℕ) (center : String)
    (max_distance : ℕ) (col : String) (df : List HexRow) :
    collectCosts (liftDist gd) center max_distance col df =
      .ok ((neighboursAt gd center max_distance df).map (fun r2 => r2.cols col)) := by
  induction df with
  | nil => rfl
  | cons r rest ih =>
    simp only [collectCosts, liftDist, ih, neighboursAt, List.filter_cons]
    by_cases h : 0 < gd center r.hex_id ∧ gd center r.hex_id ≤ max_distance
    · simp [h, neighboursAt]
    · simp [h, neighboursAt]

theorem compute_neighbours_col_liftDist (gd : String → String → ℕ) (row : HexRow)
    (df : List HexRow) (d : ℕ) (col : String) :
    compute_neighbours_col (liftDist gd) row df d col =
      .ok (meanOpt ((neighboursAt gd row.hex_id d df).map (fun r2 => r2.cols col))) := by
  simp only [compute_neighbours_col, collectCosts_liftDist, meanOpt]
  rcases h : (neighboursAt gd row.hex_id d df).map (fun r2 => r2.cols col) with _ | ⟨a, l⟩ <;>
    simp [h]

/-- C1: with a total grid-distance primitive, `compute_neighbours_col` returns
exactly the arithmetic mean of the attribute values of the rows at grid
distance strictly greater than 0 and at most `d` from the center (the "no
data" sentinel when that set is empty); rows at distance 0 — the row itself
and any duplicate of its hex_id — are never counted, as the concrete
[(A,10), (A,10), (B,20)] example shows: the mean for the first A-row at
distance 1 is 20. -/
theorem compute_neighbours_col_is_neighbour_mean :
    (∀ (gd : String → String → ℕ) (row : HexRow) (df : List HexRow) (d : ℕ) (col : String),
      compute_neighbours_col (liftDist gd) row df d col =
        .ok (meanOpt ((neighboursAt gd row.hex_id d df).map (fun r2 => r2.cols col)))) ∧
    compute_neighbours_col
      (liftDist (fun a b => if a = b then 0 else 1))
      ⟨"A", fun _ => 10⟩
      [⟨"A", fun _ => 10⟩, ⟨"A", fun _ => 10⟩, ⟨"B", fun _ => 20⟩]
      1 "cost_of_living" = .ok (some 20) := by
  refine ⟨compute_neighbours_col_liftDist, ?_⟩
  simp [compute_neighbours_col_liftDist, neighboursAt, meanOpt, List.filter]

/-- The spec-level neighbour mean of one row at one distance bound. -/
def rowMeanSpec (gd : String → String → ℕ) (r : HexRow) (df : List HexRow) (d : ℕ) :
    Option ℚ :=
  meanOpt ((neighboursAt gd r.hex_id d df).map (fun r2 => r2.cols "cost_of_living"))

theorem mapM_ok {α β : Type} (f : α → Except String β) (g : α → β)
    (l : List α) (h : ∀ a ∈ l, f a = .ok (g a)) :
    l.mapM f = .ok (l.map g) := by
  induction l with
  | nil => rfl
  | cons a t ih =>
    rw [List.mapM_cons, h a (List.mem_cons_self a t),
      ih (fun x hx => h x (List.mem_cons_of_mem _ hx))]
    rfl

/-- C7: with a total grid-distance primitive, the per-row aggregation returns,
for each row, the per-distance neighbour means (or NaN) in the caller-fixed
distance order 1, 2, 3, 4, and the modelled global driver `neighbor_means`
keeps the rows in their original order (result `i` belongs to row `i`). -/
theorem compute_neighbours_costs_for_row_ordered :
    (∀ (gd : String → String → ℕ) (row : HexRow) (df : List HexRow),
      compute_neighbours_costs_for_row (liftDist gd) row df =
        .ok ([1, 2, 3, 4].map (fun d => rowMeanSpec gd row df d))) ∧
    (∀ (gd : String → String → ℕ) (rows : List HexRow),
      neighbor_means (liftDist gd) rows =
        .ok (rows.map (fun r => [1, 2, 3, 4].map (fun d => rowMeanSpec gd r rows d)))) := by
  have hrow : ∀ (gd : String → String → ℕ) (row : HexRow) (df : List HexRow),
      compute_neighbours_costs_for_row (liftDist gd) row df =
        .ok ([1, 2, 3, 4].map (fun d => rowMeanSpec gd row df d)) := by
    intro gd row df
    simp [compute_neighbours_costs_for_row, compute_neighbours_col_liftDist, rowMeanSpec]
    rfl
  refine ⟨hrow, ?_⟩
  intro gd rows
  exact mapM_ok _ _ rows (fun r _ => hrow gd r rows)

/-- C8: ring monotonicity — with a total grid-distance primitive, the values
collected at distance bound `d` form a sublist of those collected at any
`d' ≥ d`, so the candidate neighbour set never shrinks as the distance grows. -/
theorem collectCosts_ring_monotone (gd : String → String → ℕ) (center : String)
    (col : String) (df : List HexRow) {d d' : ℕ} (h : d ≤ d') :
    ∃ v v', collectCosts (liftDist gd) center d col df = .ok v ∧
      collectCosts (liftDist gd) center d' col df = .ok v' ∧
      v.Sublist v' ∧ v.length ≤ v'.length := by
  refine ⟨_, _, collectCosts_liftDist gd center d col df,
    collectCosts_liftDist gd center d' col df, ?_⟩
  have hsub : (neighboursAt gd center d df).Sublist (neighboursAt gd center d' df) := by
    apply List.monotone_filter_right
    intro a ha
    simp only [decide_eq_true_eq] at ha ⊢
    exact ⟨ha.1, le_trans ha.2 h⟩
  exact ⟨hsub.map _, (hsub.map _).length_le⟩

theorem collectCosts_ring_monotone_witness :
    ∃ v v', collectCosts (liftDist (fun a b => if a = b then 0 else 2)) "A" 1 "cost_of_living"
        [⟨"A", fun _ => 10⟩, ⟨"B", fun _ => 20⟩] = .ok v ∧
      collectCosts (liftDist (fun a b => if a = b then 0 else 2)) "A" 2 "cost_of_living"
        [⟨"A", fun _ => 10⟩, ⟨"B", fun _ => 20⟩] = .ok v' ∧
      v.Sublist v' ∧ v.length ≤ v'.length :=
  collectCosts_ring_monotone _ _ _ _ (by decide)


theorem collectCosts_error_of_mem (h3_distance : String → String → Except String ℕ)
    (center : String) (d : ℕ) (col : String) (df : List HexRow)
    (h : ∃ r2 ∈ df, ∃ e, h3_distance center r2.hex_id = .error e) :
    ∃ e, collectCosts h3_distance center d col df = .error e := by
  induction df with
  | nil => simp at h
  | cons r rest ih =>
    rcases hr : h3_distance center r.hex_id with e | n
    · exact ⟨e, by simp [collectCosts, hr]⟩
    · obtain ⟨r2, hmem, e, he⟩ := h
      rcases List.mem_cons.mp hmem with rfl | hmem'
      · rw [hr] at he; cases he
      · obtain ⟨e', he'⟩ := ih ⟨r2, hmem', e, he⟩
        exact ⟨e', by simp [collectCosts, hr, he']⟩

/-- C9: the aggregator has no fail-closed policy — if the grid-distance
primitive raises for some (center, candidate) pair of the dataframe (for
example when a hex_id is the "unknown" sentinel left by the indexer), the exception
propagates out of `compute_neighbours_col` and out of
`compute_neighbours_costs_for_row`, and no result is returned for that row. -/
theorem compute_neighbours_col_propagates_distance_errors
    (h3_distance : String → String → Except String ℕ) (row : HexRow)
    (df : List HexRow) (max_distance : ℕ) (col : String)
    (h : ∃ r2 ∈ df, ∃ e, h3_distance row.hex_id r2.hex_id = .error e) :
    (∃ e, compute_neighbours_col h3_distance row df max_distance col = .error e) ∧
    (∃ e, compute_neighbours_costs_for_row h3_distance row df = .error e) := by
  constructor
  · obtain ⟨e, he⟩ := collectCosts_error_of_mem h3_distance row.hex_id max_distance col df h
    exact ⟨e, by simp [compute_neighbours_col, he]⟩
  · obtain ⟨e, he⟩ := collectCosts_error_of_mem h3_distance row.hex_id 1 "cost_of_living" df h
    refine ⟨e, ?_⟩
    simp only [compute_neighbours_costs_for_row, compute_neighbours_col, he]
    rfl

theorem compute_neighbours_col_propagates_distance_errors_witness :
    (∃ e, compute_neighbours_col (fun _ _ => .error "H3CellError")
      ⟨"unknown", fun _ => 0⟩ [⟨"unknown", fun _ => 0⟩] 4 "cost_of_living" = .error e) ∧
    (∃ e, compute_neighbours_costs_for_row (fun _ _ => .error "H3CellError")
      ⟨"unknown", fun _ => 0⟩ [⟨"unknown", fun _ => 0⟩] = .error e) :=
  compute_neighbours_col_propagates_distance_errors _ _ _ _ _
    ⟨⟨"unknown", fun _ => 0⟩, List.mem_cons_self _ _, "H3CellError", rfl⟩

/-- A cell value of the tabular file: numeric, string, or null. -/
inductive Val where
  | num (q : ℚ)
  | str (s : String)
  | null
deriving DecidableEq, Repr

/-- A record of the columnar file: an association list of column name to
value, in column order. -/
abbrev Rec := List (String × Val)

/-- Column access on a record (pandas `row[c]`), `none` if the column is
absent. -/
def getCol (r : Rec) (c : String) : Option Val :=
  (r.find? (fun p => p.1 == c)).map (fun p => p.2)

/-- Column assignment on a record (pandas `df[c] = v`): replace the column
in place if present, else append it as the last column. -/
def setCol (r : Rec) (c : String) (v : Val) : Rec :=
  if r.any (fun p => p.1 == c) then r.map (fun p => if p.1 == c then (c, v) else p)
  else r ++ [(c, v)]

/-- Embedding of `compute_h3_index` (helper.py lines 101-116): call the
`h3.geo_to_h3` primitive (a parameter, possibly raising) and map any
exception to the sentinel string "unknown".  The function itself is total:
it never raises. -/
def compute_h3_index {α β : Type} (geo_to_h3 : α → β → ℕ → Except String String)
    (lat : α) (lon : β) (resolution : ℕ := 8) : String :=
  match geo_to_h3 lat lon resolution with
  | .ok h => h
  | .error _ => "unknown"

/-- One row of the per-chunk transform of the indexer (helper.py lines 157-159):
the pandas assignment that adds column h3_index by applying compute_h3_index to the lat and lon fields of each row. -/
def addH3Column (geo_to_h3 : Option Val → Option Val → ℕ → Except String String)
    (r : Rec) : Rec :=
  setCol r "h3_index" (.str (compute_h3_index geo_to_h3 (getCol r "lat") (getCol r "lon") 8))

/-- The chunk offsets of the chunk loop (helper.py line 151):
`range(0, total_rows, chunk_size)`, that is `0, c, 2c, …` below
`total_rows` — `⌈total_rows / chunk_size⌉` offsets in all. -/
def offsets (total_rows chunk_size : ℕ) : List ℕ :=
  (List.range ((total_rows + chunk_size - 1) / chunk_size)).map (fun i => i * chunk_size)

/-- One chunk read (helper.py line 153):
`SELECT * FROM input LIMIT chunk_size OFFSET offset` over the input rows in
file order. -/
def readChunk (rows : List Rec) (chunk_size offset : ℕ) : List Rec :=
  (rows.drop offset).take chunk_size

/-- Embedding of the data flow of `process_file_with_h3`
(helper.py lines 118-177): the output file is the concatenation, in offset
order, of the chunks read at offsets `0, c, 2c, …`, each with the `h3_index`
column added to every row. -/
def process_file_with_h3 (geo_to_h3 : Option Val → Option Val → ℕ → Except String String)
    (rows : List Rec) (chunk_size : ℕ := 1000000) : List Rec :=
  ((offsets rows.length chunk_size).map
    (fun off => (readChunk rows chunk_size off).map (addH3Column geo_to_h3))).flatten

theorem le_ceilDiv_mul (n c : ℕ) (hc : 0 < c) : n ≤ ((n + c - 1) / c) * c := by
  have hd := Nat.div_add_mod (n + c - 1) c
  have hm : (n + c - 1) % c < c := Nat.mod_lt _ hc
  rw [Nat.mul_comm]
  generalize c * ((n + c - 1) / c) = X at hd ⊢
  omega

theorem chunks_flatten_aux {α : Type} (c : ℕ) :
    ∀ (k : ℕ) (rows : List α), rows.length ≤ k * c →
      (((List.range k).map (fun i => i * c)).map
        (fun off => (rows.drop off).take c)).flatten = rows := by
  intro k
  induction k with
  | zero =>
    intro rows h
    simp only [Nat.zero_mul, Nat.le_zero, List.length_eq_zero] at h
    simp [h]
  | succ k ih =>
    intro rows h
    rw [List.range_succ_eq_map]
    simp only [List.map_cons, List.map_map, List.flatten_cons, Nat.zero_mul, List.drop_zero]
    have hfun : ((fun off => (rows.drop off).take c) ∘ (fun i => i * c) ∘ Nat.succ) =
        (fun i => (((rows.drop c).drop (i * c)).take c)) := by
      funext i
      simp only [Function.comp_apply, Nat.succ_mul, List.drop_drop]
      rw [Nat.add_comm (i * c) c]
    rw [hfun]
    have hlen : (rows.drop c).length ≤ k * c := by
      rw [List.length_drop]
      rw [Nat.add_mul, Nat.one_mul] at h
      generalize k * c = X at h ⊢
      omega
    have ihh := ih (rows.drop c) hlen
    simp only [List.map_map, Function.comp_def] at ihh
    rw [ihh, List.take_append_drop]

theorem chunks_flatten {α : Type} (c : ℕ) (hc : 0 < c) (rows : List α) :
    ((offsets rows.length c).map (fun off => (rows.drop off).take c)).flatten = rows := by
  unfold offsets
  exact chunks_flatten_aux c _ rows (le_ceilDiv_mul rows.length c hc)

theorem process_file_with_h3_eq_map
    (geo_to_h3 : Option Val → Option Val → ℕ → Except String String)
    (rows : List Rec) (c : ℕ) (hc : 0 < c) :
    process_file_with_h3 geo_to_h3 rows c = rows.map (addH3Column geo_to_h3) := by
  unfold process_file_with_h3 readChunk
  have hcomp : (fun off => List.map (addH3Column geo_to_h3) ((rows.drop off).take c)) =
      (List.map (addH3Column geo_to_h3)) ∘ (fun off => (rows.drop off).take c) := rfl
  rw [hcomp, ← List.map_map, ← List.map_flatten, chunks_flatten c hc rows]

/-- C2: the output of the indexer is invariant under the choice of chunk size —
for every input and every two positive chunk sizes, `process_file_with_h3`
produces the same rows, with identical per-row `h3_index` values, in the
same order. -/
theorem process_file_with_h3_chunk_size_invariant
    (geo_to_h3 : Option Val → Option Val → ℕ → Except String String)
    (rows : List Rec) (c₁ c₂ : ℕ) (h₁ : 0 < c₁) (h₂ : 0 < c₂) :
    process_file_with_h3 geo_to_h3 rows c₁ = process_file_with_h3 geo_to_h3 rows c₂ := by
  rw [process_file_with_h3_eq_map geo_to_h3 rows c₁ h₁,
    process_file_with_h3_eq_map geo_to_h3 rows c₂ h₂]

theorem process_file_with_h3_chunk_size_invariant_witness :
    0 < 10 ∧ 0 < 10000 ∧
    process_file_with_h3 (fun _ _ _ => .ok "88aabbccddeeff")
      [[("lat", .num 1), ("lon", .num 2)], [("lat", .num 3), ("lon", .num 4)],
        [("lat", .num 5), ("lon", .num 6)]] 10 =
    process_file_with_h3 (fun _ _ _ => .ok "88aabbccddeeff")
      [[("lat", .num 1), ("lon", .num 2)], [("lat", .num 3), ("lon", .num 4)],
        [("lat", .num 5), ("lon", .num 6)]] 10000 :=
  ⟨by decide, by decide,
    process_file_with_h3_chunk_size_invariant _ _ 10 10000 (by decide) (by decide)⟩

/-- C4: for every input and every positive chunk size — dividing the row
count evenly or not — the indexer writes exactly as many rows as the input
has: no row is filtered, dropped, or duplicated. -/
theorem process_file_with_h3_row_count
    (geo_to_h3 : Option Val → Option Val → ℕ → Except String String)
    (rows : List Rec) (c : ℕ) (hc : 0 < c) :
    (process_file_with_h3 geo_to_h3 rows c).length = rows.length := by
  rw [process_file_with_h3_eq_map geo_to_h3 rows c hc, List.length_map]

theorem process_file_with_h3_row_count_witness :
    0 < 2 ∧
    (process_file_with_h3 (fun _ _ _ => .ok "88aabbccddeeff")
      [[("lat", .num 1), ("lon", .num 2)], [("lat", .num 3), ("lon", .num 4)],
        [("lat", .num 5), ("lon", .num 6)]] 2).length = 3 :=
  ⟨by decide, process_file_with_h3_row_count _ _ 2 (by decide)⟩

theorem getCol_cons (p : String × Val) (t : Rec) (c : String) :
    getCol (p :: t) c = if p.1 == c then some p.2 else getCol t c := by
  by_cases hp : p.1 == c
  · simp [getCol, List.find?_cons_of_pos, hp]
  · simp only [Bool.not_eq_true] at hp
    simp [getCol, List.find?_cons_of_neg, hp]

theorem getCol_append_new (r : Rec) (c : String) (v : Val)
    (h : r.any (fun p => p.1 == c) = false) :
    getCol (r ++ [(c, v)]) c = some v := by
  induction r with
  | nil => simp [getCol_cons]
  | cons p t ih =>
    simp only [List.any_cons, Bool.or_eq_false_iff] at h
    rw [List.cons_append, getCol_cons, h.1]
    exact ih h.2

theorem getCol_map_replace (r : Rec) (c : String) (v : Val)
    (h : r.any (fun p => p.1 == c) = true) :
    getCol (r.map (fun p => if p.1 == c then (c, v) else p)) c = some v := by
  induction r with
  | nil => simp at h
  | cons p t ih =>
    simp only [List.any_cons, Bool.or_eq_true] at h
    by_cases hp : p.1 == c
    · simp only [List.map_cons, if_pos hp, getCol_cons]
      simp
    · simp only [Bool.not_eq_true] at hp
      rw [List.map_cons, if_neg (by simp [hp]), getCol_cons]
      simp only [hp, Bool.false_eq_true, if_false]
      rcases h with h | h
      · simp [hp] at h
      · exact ih h

theorem getCol_setCol (r : Rec) (c : String) (v : Val) :
    getCol (setCol r c v) c = some v := by
  unfold setCol
  by_cases h : r.any (fun p => p.1 == c)
  · rw [if_pos h]
    exact getCol_map_replace r c v h
  · simp only [Bool.not_eq_true] at h
    rw [if_neg (by simp [h])]
    exact getCol_append_new r c v h

/-- C5 counterexample: the claim names the new column `hex_index`, but the
code adds a column named `h3_index` (helper.py line 157).  On a concrete
one-row input with a succeeding conversion primitive, the output record has
no `hex_index` column at all (while `h3_index` is present). -/
theorem process_file_with_h3_no_hex_index_column :
    ¬ (∀ r ∈ process_file_with_h3 (fun _ _ _ => .ok "88aabbccddeeff")
          [[("lat", .num 1), ("lon", .num 2)]] 10,
        (getCol r "hex_index").isSome = true) := by
  decide

/-- C5 (amended): after indexing, every record gains a column named
`h3_index` holding a string grid-cell identifier — the cell produced by the
conversion primitive when it succeeds, or the sentinel "unknown" when it
fails. -/
theorem process_file_with_h3_adds_h3_index_column
    (geo_to_h3 : Option Val → Option Val → ℕ → Except String String)
    (rows : List Rec) (c : ℕ) (hc : 0 < c) :
    ∀ out ∈ process_file_with_h3 geo_to_h3 rows c, ∃ r ∈ rows,
      getCol out "h3_index" =
        some (.str (compute_h3_index geo_to_h3 (getCol r "lat") (getCol r "lon") 8)) ∧
      ((∃ cell, geo_to_h3 (getCol r "lat") (getCol r "lon") 8 = .ok cell ∧
          getCol out "h3_index" = some (.str cell)) ∨
        ((∃ e, geo_to_h3 (getCol r "lat") (getCol r "lon") 8 = .error e) ∧
          getCol out "h3_index" = some (.str "unknown"))) := by
  intro out hout
  rw [process_file_with_h3_eq_map geo_to_h3 rows c hc] at hout
  obtain ⟨r, hr, rfl⟩ := List.mem_map.mp hout
  refine ⟨r, hr, getCol_setCol r "h3_index" _, ?_⟩
  rcases hg : geo_to_h3 (getCol r "lat") (getCol r "lon") 8 with e | cell
  · right
    refine ⟨⟨e, rfl⟩, ?_⟩
    have : compute_h3_index geo_to_h3 (getCol r "lat") (getCol r "lon") 8 = "unknown" := by
      simp [compute_h3_index, hg]
    rw [addH3Column, this]
    exact getCol_setCol r "h3_index" _
  · left
    refine ⟨cell, rfl, ?_⟩
    have : compute_h3_index geo_to_h3 (getCol r "lat") (getCol r "lon") 8 = cell := by
      simp [compute_h3_index, hg]
    rw [addH3Column, this]
    exact getCol_setCol r "h3_index" _

theorem process_file_with_h3_adds_h3_index_column_witness :
    0 < 10 ∧
    ∀ out ∈ process_file_with_h3 (fun _ _ _ => .ok "88aabbccddeeff")
        [[("lat", .num 1), ("lon", .num 2)]] 10,
      ∃ r ∈ [[("lat", Val.num 1), ("lon", Val.num 2)]],
        getCol out "h3_index" = some (.str (compute_h3_index
          (fun (_ : Option Val) (_ : Option Val) (_ : ℕ) =>
            (Except.ok "88aabbccddeeff" : Except String String))
          (getCol r "lat") (getCol r "lon") 8)) ∧
        ((∃ cell, (Except.ok "88aabbccddeeff" : Except String String) = .ok cell ∧
            getCol out "h3_index" = some (.str cell)) ∨
          ((∃ e, (Except.ok "88aabbccddeeff" : Except String String) = .error e) ∧
            getCol out "h3_index" = some (.str "unknown"))) :=
  ⟨by decide, process_file_with_h3_adds_h3_index_column _ _ 10 (by decide)⟩

/-- The resource and I/O operations of `process_file_with_h3`, in program
order: connect to DuckDB, run the row-count query, read a chunk at an
offset, initialise the parquet writer, write a chunk, close the writer,
close the connection. -/
inductive Event where
  | connect
  | countRows
  | readChunk (offset : ℕ)
  | openWriter
  | writeChunk (offset : ℕ)
  | closeWriter
  | closeConn
deriving DecidableEq, Repr

/-- The body of the `for offset in range(0, total_rows, chunk_size)`
loop (helper.py lines 151-170), as the trace of operations that complete;
`fails` says which operations raise.  Arguments: the offsets still to
process and whether `writer` has been initialised.  Returns the trace, the
final writer state, and whether an exception was raised. -/
def runLoop (fails : Event → Bool) : List ℕ → Bool → List Event × Bool × Bool
  | [], w => ([], w, false)
  | off :: rest, w =>
    if fails (.readChunk off) then ([], w, true)
    else if w then
      if fails (.writeChunk off) then ([.readChunk off], w, true)
      else
        let r := runLoop fails rest w
        (.readChunk off :: .writeChunk off :: r.1, r.2)
    else
      if fails .openWriter then ([.readChunk off], false, true)
      else if fails (.writeChunk off) then ([.readChunk off, .openWriter], true, true)
      else
        let r := runLoop fails rest true
        (.readChunk off :: .openWriter :: .writeChunk off :: r.1, r.2)

/-- The resource behaviour of `process_file_with_h3` (helper.py
lines 140-177): connect, run the row-count query — which happens before the
`try` block — then the chunk loop under `try/finally`; the `finally` closes
the writer if it was ever initialised, then closes the connection.  Returns
the trace of completed operations and whether an exception propagates to
the caller. -/
def process_file_with_h3_run (fails : Event → Bool) (total_rows chunk_size : ℕ) :
    List Event × Bool :=
  if fails .countRows then ([.connect], true)
  else
    let r := runLoop fails (offsets total_rows chunk_size) false
    (.connect :: .countRows ::
        (r.1 ++ (if r.2.1 then [.closeWriter] else []) ++ [.closeConn]),
      r.2.2)

theorem runLoop_no_close (fails : Event → Bool) (offs : List ℕ) :
    ∀ w, Event.closeConn ∉ (runLoop fails offs w).1 ∧
      Event.closeWriter ∉ (runLoop fails offs w).1 := by
  induction offs with
  | nil => intro w; simp [runLoop]
  | cons off rest ih =>
    intro w
    simp only [runLoop]
    by_cases h1 : fails (.readChunk off)
    · simp [h1]
    · by_cases hw : w
      · by_cases h2 : fails (.writeChunk off)
        · simp [h1, hw, h2]
        · simpa [h1, hw, h2] using ih w
      · by_cases h3 : fails .openWriter
        · simp [h1, hw, h3]
        · by_cases h2 : fails (.writeChunk off)
          · simp [h1, hw, h3, h2]
          · simpa [h1, hw, h3, h2] using ih true

theorem runLoop_writer_stays (fails : Event → Bool) (offs : List ℕ) :
    (runLoop fails offs true).2.1 = true ∧
      Event.openWriter ∉ (runLoop fails offs true).1 := by
  induction offs with
  | nil => simp [runLoop]
  | cons off rest ih =>
    simp only [runLoop]
    by_cases h1 : fails (.readChunk off)
    · simp [h1]
    · by_cases h2 : fails (.writeChunk off)
      · simp [h1, h2]
      · simpa [h1, h2] using ih

theorem runLoop_opened_iff (fails : Event → Bool) (offs : List ℕ) :
    Event.openWriter ∈ (runLoop fails offs false).1 ↔
      (runLoop fails offs false).2.1 = true := by
  induction offs with
  | nil => simp [runLoop]
  | cons off rest ih =>
    simp only [runLoop]
    by_cases h1 : fails (.readChunk off)
    · simp [h1]
    · by_cases h3 : fails .openWriter
      · simp [h1, h3]
      · by_cases h2 : fails (.writeChunk off)
        · simp [h1, h3, h2]
        · simp [h1, h3, h2, (runLoop_writer_stays fails rest).1]

/-- C6 counterexample: the row-count query runs before the `try` block
(helper.py line 144), so when it raises — e.g. an unreadable input file —
the function exits with an exception and the DuckDB connection is closed
zero times, not once.  Concretely, with only the count query failing, the
trace ends after `connect` with no `closeConn`. -/
theorem process_file_with_h3_count_failure_skips_cleanup :
    (process_file_with_h3_run (fun e => e == Event.countRows) 5 2).2 = true ∧
    (process_file_with_h3_run (fun e => e == Event.countRows) 5 2).1.count
      Event.closeConn = 0 := by
  decide

/-- C6 (amended): on every exit path of `process_file_with_h3` on which the
initial row-count query succeeds — including an exception raised mid-loop —
the input connection is closed exactly once, the output writer is closed
exactly once if and only if it was ever opened, and the connection close is
the last operation performed before the function returns or the error
propagates.  (If the row-count query itself fails, no cleanup runs: that
query sits before the try/finally block.) -/
theorem process_file_with_h3_cleanup (fails : Event → Bool) (n c : ℕ)
    (h : fails Event.countRows = false) :
    (process_file_with_h3_run fails n c).1.count Event.closeConn = 1 ∧
    ((process_file_with_h3_run fails n c).1.count Event.closeWriter =
      if Event.openWriter ∈ (process_file_with_h3_run fails n c).1 then 1 else 0) ∧
    (process_file_with_h3_run fails n c).1.getLast? = some Event.closeConn := by
  have hrun : process_file_with_h3_run fails n c =
      (Event.connect :: Event.countRows ::
        ((runLoop fails (offsets n c) false).1 ++
          (if (runLoop fails (offsets n c) false).2.1 then [Event.closeWriter] else []) ++
          [Event.closeConn]),
        (runLoop fails (offsets n c) false).2.2) := by
    unfold process_file_with_h3_run
    rw [if_neg (by simp [h])]
  obtain ⟨hnc, hnw⟩ := runLoop_no_close fails (offsets n c) false
  refine ⟨?_, ?_, ?_⟩
  · rw [hrun]
    by_cases hw : (runLoop fails (offsets n c) false).2.1 = true <;>
      simp [hw, List.count_cons, List.count_append, List.count_eq_zero.mpr hnc]
  · rw [hrun]
    by_cases hw : (runLoop fails (offsets n c) false).2.1 = true
    · have hmem : Event.openWriter ∈ (runLoop fails (offsets n c) false).1 :=
        (runLoop_opened_iff fails (offsets n c)).mpr hw
      simp [hw, hmem, List.count_cons, List.count_append,
        List.count_eq_zero.mpr hnw]
    · have hmem : Event.openWriter ∉ (runLoop fails (offsets n c) false).1 := by
        intro hm
        exact hw ((runLoop_opened_iff fails (offsets n c)).mp hm)
      simp [hw, hmem, List.count_cons, List.count_append,
        List.count_eq_zero.mpr hnw]
  · rw [hrun]
    have hshape : Event.connect :: Event.countRows ::
        ((runLoop fails (offsets n c) false).1 ++
          (if (runLoop fails (offsets n c) false).2.1 then [Event.closeWriter] else []) ++
          [Event.closeConn]) =
        (Event.connect :: Event.countRows ::
          ((runLoop fails (offsets n c) false).1 ++
            (if (runLoop fails (offsets n c) false).2.1 then [Event.closeWriter] else []))) ++
          [Event.closeConn] := by
      simp [List.append_assoc]
    rw [hshape, List.getLast?_concat]

theorem process_file_with_h3_cleanup_witness :
    ((fun e => e == Event.writeChunk 2) Event.countRows = false) ∧
    ((process_file_with_h3_run (fun e => e == Event.writeChunk 2) 5 2).1.count
        Event.closeConn = 1 ∧
      ((process_file_with_h3_run (fun e => e == Event.writeChunk 2) 5 2).1.count
          Event.closeWriter =
        if Event.openWriter ∈
            (process_file_with_h3_run (fun e => e == Event.writeChunk 2) 5 2).1
          then 1 else 0) ∧
      (process_file_with_h3_run (fun e => e == Event.writeChunk 2) 5 2).1.getLast? =
        some Event.closeConn) :=
  ⟨by decide, process_file_with_h3_cleanup _ 5 2 (by decide)⟩

/-- C10: on a zero-row input the indexer performs no chunk iteration, never
initialises the output writer, closes the input connection, and returns
normally — the trace is exactly connect, count, close-connection with no
exception, and the data output is empty. -/
theorem process_file_with_h3_empty_input
    (geo_to_h3 : Option Val → Option Val → ℕ → Except String String)
    (fails : Event → Bool) (c : ℕ) (hc : 0 < c)
    (h : fails Event.countRows = false) :
    process_file_with_h3 geo_to_h3 [] c = [] ∧
    process_file_with_h3_run fails 0 c =
      ([Event.connect, Event.countRows, Event.closeConn], false) := by
  constructor
  · rw [process_file_with_h3_eq_map geo_to_h3 [] c hc]
    rfl
  · have hoff : offsets 0 c = [] := by
      unfold offsets
      rw [Nat.div_eq_of_lt (by omega)]
      rfl
    unfold process_file_with_h3_run
    rw [if_neg (by simp [h]), hoff]
    simp [runLoop]

theorem process_file_with_h3_empty_input_witness :
    0 < 5 ∧ ((fun _ => false) Event.countRows = false) ∧
    (process_file_with_h3 (fun _ _ _ => .ok "88aabbccddeeff") [] 5 = [] ∧
      process_file_with_h3_run (fun _ => false) 0 5 =
        ([Event.connect, Event.countRows, Event.closeConn], false)) :=
  ⟨by decide, by decide,
    process_file_with_h3_empty_input _ _ 5 (by decide) (by decide)⟩

/-- C3: `compute_h3_index` never raises — it is a total function into
strings for every input, including invalid coordinates such as lat = 200 or
null coordinates: whenever the coordinate-to-cell primitive fails it returns
the sentinel "unknown", and otherwise it returns the cell identifier the
primitive produced. -/
theorem compute_h3_index_never_raises {α β : Type}
    (geo_to_h3 : α → β → ℕ → Except String String) (lat : α) (lon : β) (res : ℕ) :
    ((∃ e, geo_to_h3 lat lon res = .error e) →
      compute_h3_index geo_to_h3 lat lon res = "unknown") ∧
    (∀ cell, geo_to_h3 lat lon res = .ok cell →
      compute_h3_index geo_to_h3 lat lon res = cell) := by
  constructor
  · rintro ⟨e, he⟩
    simp [compute_h3_index, he]
  · intro cell hcell
    simp [compute_h3_index, hcell]

/-- A sample coordinate-to-cell primitive for concrete evaluations: raises
on out-of-range latitude, succeeds otherwise. -/
def geoSample : ℚ → ℚ → ℕ → Except String String := fun la _ _ =>
  if la < -90 ∨ 90 < la then .error "latitude out of range"
  else .ok "88aabbccddeeff"

theorem compute_h3_index_never_raises_witness :
    compute_h3_index geoSample 200 0 8 = "unknown" ∧
    compute_h3_index geoSample 10 0 8 = "88aabbccddeeff" :=
  ⟨(compute_h3_index_never_raises geoSample 200 0 8).1
      ⟨"latitude out of range", by rfl⟩,
    (compute_h3_index_never_raises geoSample 10 0 8).2 "88aabbccddeeff" (by rfl)⟩
